import Mathlib

/-!
Verification development for the Flux evaluator (src/evaluator.py).

The evaluator is a tree-walking interpreter over an externally produced AST.
We shallowly embed its runtime value model, environment chain, and the
evaluation routine (including the tail-call elimination protocol built from
the in_tail_position flag, the TailCall signal and the trampoline loop in
Function.call) as executable Lean definitions, and prove the frozen claims
about them.

Modelling conventions:
- Python integers are Int; Python floats are modelled as exact rationals
  (the claims under study depend on value equality, zero tests and exact
  small quotients, never on IEEE-754 rounding).
- Python `bool` is a subclass of `int`: `isinstance(True, int)` holds and
  `True == 1`.  The numeric-coercion helper `asNum` therefore accepts
  Boolean values, exactly as `isinstance(x, (int, float))` does in the
  source.
- Environments are heap-allocated frames addressed by index; a child frame
  always points to an already existing (lower-index) parent, so chain
  walks are bounded by the frame count, which the lookup helpers use as
  fuel.
- Function objects live in a heap and compare by identity (their heap id),
  matching Python object equality on class instances without __eq__.
- Exceptions (FluxRuntimeError, the Return signal, the TailCall signal,
  and uncaught host errors) are an explicit sum type threaded through
  evaluation; try/finally blocks of the source are translated by
  performing the restoring writes on exactly the paths the source does.
- Tokens and source line numbers are dropped: the source uses them only to
  format error text.  Error messages keep the descriptive part, without
  the quoting punctuation.
-/

/-- Runtime values of the language: the tagged union described by the data
model (Integer, Float, String, Boolean, Nil, Array, Dict, Function,
BuiltinFunction).  Functions are references into the function heap. -/
inductive Value where
  | vint (n : Int)
  | vfloat (q : ℚ)
  | vstr (s : String)
  | vbool (b : Bool)
  | vnil
  | varr (elems : List Value)
  | vdict (pairs : List (Value × Value))
  | vfun (fid : Nat)
  | vbuiltin (name : String)
deriving Repr

/-- Numeric view of a value, as produced by the isinstance(x, (int, float))
checks of the source.  Python bool is a subclass of int, so Boolean values
pass those checks with True = 1 and False = 0. -/
inductive NumV where
  | ivar (n : Int)
  | fvar (q : ℚ)
deriving Repr

/-- The numeric view of a value: some for Integer, Float and Boolean
(Python bool being an int subclass), none for every other kind. -/
def asNum : Value → Option NumV
  | .vint n => some (.ivar n)
  | .vfloat q => some (.fvar q)
  | .vbool b => some (.ivar (if b then 1 else 0))
  | _ => none

/-- Rational magnitude of a numeric view. -/
def numQ : NumV → ℚ
  | .ivar n => (n : ℚ)
  | .fvar q => q

/-- Python addition on numbers: int + int stays int, a float operand makes
the result float. -/
def addNum : NumV → NumV → Value
  | .ivar a, .ivar b => .vint (a + b)
  | a, b => .vfloat (numQ a + numQ b)

/-- Python subtraction on numbers. -/
def subNum : NumV → NumV → Value
  | .ivar a, .ivar b => .vint (a - b)
  | a, b => .vfloat (numQ a - numQ b)

/-- Python multiplication on numbers. -/
def mulNum : NumV → NumV → Value
  | .ivar a, .ivar b => .vint (a * b)
  | a, b => .vfloat (numQ a * numQ b)

/-- Python true division on numbers: always a float. -/
def divNum (a b : NumV) : Value := .vfloat (numQ a / numQ b)

/-- Python remainder on numbers: int % int is floor-style modulo (the sign
follows the divisor, a % b = a - b * (a floordiv b), with floordiv the
floor of the exact quotient); with a float operand the same floor formula
is applied to the rational magnitudes. -/
def modNum : NumV → NumV → Value
  | .ivar a, .ivar b => .vint (a - b * ⌊(a : ℚ) / (b : ℚ)⌋)
  | a, b => .vfloat (numQ a - numQ b * (⌊numQ a / numQ b⌋ : Int))

/-- Python equality between numbers compares exact magnitudes (mixed
int/float comparison is exact, and booleans compare as 0/1). -/
def numEq (a b : NumV) : Bool :=
  match a, b with
  | .ivar x, .ivar y => decide (x = y)
  | a, b => decide (numQ a = numQ b)

/-- Python strict less-than on numbers. -/
def numLt (a b : NumV) : Bool :=
  match a, b with
  | .ivar x, .ivar y => decide (x < y)
  | a, b => decide (numQ a < numQ b)

/-- Python less-or-equal on numbers. -/
def numLe (a b : NumV) : Bool :=
  match a, b with
  | .ivar x, .ivar y => decide (x ≤ y)
  | a, b => decide (numQ a ≤ numQ b)

mutual
/-- Structural size of a value, used to bound recursion over the nested
array/dict structure. -/
def vsize : Value → Nat
  | .varr xs => 1 + vsizeList xs
  | .vdict ps => 1 + vsizePairs ps
  | _ => 1
/-- Structural size of a value list. -/
def vsizeList : List Value → Nat
  | [] => 1
  | x :: xs => 1 + vsize x + vsizeList xs
/-- Structural size of a pair list. -/
def vsizePairs : List (Value × Value) → Nat
  | [] => 1
  | (k, v) :: ps => 1 + vsize k + vsize v + vsizePairs ps
end

mutual
/-- Fuel-bounded Python value equality (the == of the source, used by
visit_bin_op for EQEQ/NOTEQ, by visit_match, and by right == 0 checks).
Numbers of any of the three numeric kinds compare by magnitude; strings,
arrays and dicts compare structurally (dicts as unordered key/value sets);
functions compare by identity; values of unrelated kinds are unequal.
The fuel strictly exceeds the structural recursion depth at every use via
the wrapper pyEq below. -/
def pyEqF : Nat → Value → Value → Bool
  | 0, _, _ => false
  | fuel + 1, a, b =>
    match a, b with
    | .vnil, .vnil => true
    | .vstr s, .vstr t => decide (s = t)
    | .vfun i, .vfun j => decide (i = j)
    | .vbuiltin m, .vbuiltin n => decide (m = n)
    | .varr [], .varr [] => true
    | .varr (x :: xs), .varr (y :: ys) =>
      pyEqF fuel x y && pyEqF fuel (.varr xs) (.varr ys)
    | .vdict ps, .vdict qs =>
      decide (ps.length = qs.length) && pyDictLeF fuel ps qs && pyDictGeF fuel ps qs
    | a, b =>
      match asNum a, asNum b with
      | some x, some y => numEq x y
      | _, _ => false
/-- Left-to-right dict inclusion: every pair of the first list has a
matching pair in the second (recursion is keyed on the first list). -/
def pyDictLeF : Nat → List (Value × Value) → List (Value × Value) → Bool
  | 0, _, _ => false
  | _ + 1, [], _ => true
  | fuel + 1, (k, v) :: rest, qs =>
    pyDictMemF fuel k v qs && pyDictLeF fuel rest qs
/-- Right-to-left dict inclusion, still recursing on pairs of the first
list so that both directions are structural in the same argument. -/
def pyDictGeF : Nat → List (Value × Value) → List (Value × Value) → Bool
  | 0, _, _ => false
  | _ + 1, _, [] => true
  | fuel + 1, ps, (k, v) :: rest =>
    pyDictMemF fuel k v ps && pyDictGeF fuel ps rest
/-- Membership of an equal key/value pair in a pair list. -/
def pyDictMemF : Nat → Value → Value → List (Value × Value) → Bool
  | 0, _, _, _ => false
  | _ + 1, _, _, [] => false
  | fuel + 1, k, v, (k2, v2) :: rest =>
    (pyEqF fuel k k2 && pyEqF fuel v v2) || pyDictMemF fuel k v rest
end

/-- Python value equality with fuel ample for the structure of both sides. -/
def pyEq (a b : Value) : Bool := pyEqF (vsize a + vsize b + 1) a b

example : pyEq (.vbool true) (.vint 1) = true := by decide
example : pyEq (.vstr "1") (.vint 1) = false := by decide
example : pyEq (.vint 2) (.vfloat 2) = true := by decide
example : pyEq (.varr [.vint 1]) (.varr [.vfloat 1]) = true := by decide

/-- One Environment of the source: a local name/value mapping plus an
optional parent reference.  Frames live in a heap (list indexed by
position); children are always allocated after their parents, so parent
indices are strictly smaller than the child index. -/
structure Frame where
  vars : List (String × Value)
  parent : Option Nat
deriving Repr

/-- Lookup in a single local mapping (a Python dict keyed by name). -/
def varsGet : List (String × Value) → String → Option Value
  | [], _ => none
  | (y, v) :: rest, x => if y = x then some v else varsGet rest x

/-- Insert or overwrite in a single local mapping, keeping the original
position on overwrite as a Python dict does. -/
def varsSet : List (String × Value) → String → Value → List (String × Value)
  | [], x, v => [(x, v)]
  | (y, w) :: rest, x, v =>
    if y = x then (y, v) :: rest else (y, w) :: varsSet rest x v

/-- Environment.get: search the local mapping, then the parent chain.
Fuel bounds the chain walk; every frame points to an earlier frame, so
frame-count fuel always suffices. -/
def envGetF : Nat → List Frame → Nat → String → Option Value
  | 0, _, _, _ => none
  | fuel + 1, frames, i, x =>
    match frames[i]? with
    | none => none
    | some fr =>
      match varsGet fr.vars x with
      | some v => some v
      | none =>
        match fr.parent with
        | some p => envGetF fuel frames p x
        | none => none

/-- Environment.get with ample fuel for any acyclic chain in the heap. -/
def envGet (frames : List Frame) (i : Nat) (x : String) : Option Value :=
  envGetF (frames.length + 1) frames i x

/-- Environment.assign: find the existing binding in the chain and mutate
it in place; none when the name is undefined in the whole chain. -/
def envAssignF : Nat → List Frame → Nat → String → Value → Option (List Frame)
  | 0, _, _, _, _ => none
  | fuel + 1, frames, i, x, v =>
    match frames[i]? with
    | none => none
    | some fr =>
      match varsGet fr.vars x with
      | some _ => some (frames.set i { fr with vars := varsSet fr.vars x v })
      | none =>
        match fr.parent with
        | some p => envAssignF fuel frames p x v
        | none => none

/-- Environment.assign with ample fuel for any acyclic chain. -/
def envAssign (frames : List Frame) (i : Nat) (x : String) (v : Value) :
    Option (List Frame) :=
  envAssignF (frames.length + 1) frames i x v

/-- Environment.define: insert or overwrite in the local mapping only. -/
def envDefine (frames : List Frame) (i : Nat) (x : String) (v : Value) :
    List Frame :=
  match frames[i]? with
  | some fr => frames.set i { fr with vars := varsSet fr.vars x v }
  | none => frames

/-- Operator token types of the lexer (PLUS .. NOT) as dispatched on by
visit_bin_op and visit_unary_op. -/
inductive Op where
  | plus | minus | multiply | divide | exponent | rem
  | lt | gt | lte | gte | eqeq | noteq | andO | orO | notO
deriving Repr, DecidableEq

/-- The AST consumed by the evaluator (the node variants of ast_1 that the
visitor methods dispatch on).  Statements and expressions are one sort, as
in the source where every node is evaluated to a value.  Blocks carry their
statement lists; if/loop bodies are whole nodes (typically Block nodes).
Tokens are dropped (used only for error text in the source). -/
inductive Expr where
  | intL (n : Int)
  | floatL (q : ℚ)
  | strL (s : String)
  | boolL (b : Bool)
  | var (name : String)
  | varAssign (name : String) (value : Expr)
  | varReassign (name : String) (value : Expr)
  | binOp (op : Op) (left right : Expr)
  | unaryOp (op : Op) (right : Expr)
  | blockE (stmts : List Expr)
  | ifE (cond : Expr) (thenB : Expr) (elseB : Option Expr)
  | whileE (cond body : Expr)
  | forE (varName : String) (start stop : Expr) (step : Option Expr) (body : List Expr)
  | repeatE (body cond : Expr)
  | matchE (scrut : Expr) (cases : List (Expr × Expr))
  | funcDef (name : String) (params : List String) (body : List Expr)
  | lambdaE (params : List String) (body : List Expr)
  | funcCall (callee : Expr) (args : List Expr)
  | retE (value : Option Expr)
  | arrL (elems : List Expr)
  | dictL (pairs : List (Expr × Expr))
  | condE (cond thenE elseE : Expr)
  | printE (e : Expr)
  | arrAssign (name : String) (index value : Expr)
  | arrAccess (name : String) (index : Expr)

/-- A user-defined Function of the source: declaration data plus the
closure environment captured by reference at definition time. -/
structure FunObj where
  name : String
  params : List String
  body : List Expr
  closure : Nat
  anonymous : Bool

/-- The truthiness rule of is_truthy: None and False are false; numeric
zero of any numeric kind is false; the empty string is false; everything
else (arrays, dicts, functions, builtins included) is true. -/
def isTruthy : Value → Bool
  | .vnil => false
  | .vbool b => b
  | .vint n => decide (n ≠ 0)
  | .vfloat q => decide (q ≠ 0)
  | .vstr s => decide (s ≠ "")
  | _ => true

/-- Decimal text of a rational float: an integral value prints with no
fractional part (the is_integer branch of stringify); non-integral values
keep their exact rational rendering (the claims never stringify those). -/
def qStr (q : ℚ) : String :=
  if q.den = 1 then toString q.num else toString q

/-- Text of a function value, per the __str__ methods of Function and
BuiltinFunction. -/
def funStr (funs : List FunObj) (fid : Nat) : String :=
  match funs[fid]? with
  | some fo =>
    if fo.anonymous then
      "<anonymous function(" ++ String.intercalate ", " fo.params ++ ")>"
    else
      "<function " ++ fo.name ++ "(" ++ String.intercalate ", " fo.params ++ ")>"
  | none => "<function>"

mutual
/-- Python repr of a value, used for elements when rendering containers. -/
def pyReprF (funs : List FunObj) : Nat → Value → String
  | 0, _ => ""
  | fuel + 1, v =>
    match v with
    | .vnil => "None"
    | .vint n => toString n
    | .vfloat q => qStr q
    | .vbool b => if b then "True" else "False"
    | .vstr s =>
      String.singleton (Char.ofNat 39) ++ s ++ String.singleton (Char.ofNat 39)
    | .varr xs => "[" ++ reprJoinF funs fuel xs ++ "]"
    | .vdict ps => "\x7b" ++ reprPairsF funs fuel ps ++ "\x7d"
    | .vfun i => funStr funs i
    | .vbuiltin n => "<built-in function " ++ n ++ ">"
/-- Comma-joined reprs of array elements. -/
def reprJoinF (funs : List FunObj) : Nat → List Value → String
  | 0, _ => ""
  | _ + 1, [] => ""
  | fuel + 1, [x] => pyReprF funs fuel x
  | fuel + 1, x :: y :: rest =>
    pyReprF funs fuel x ++ ", " ++ reprJoinF funs fuel (y :: rest)
/-- Comma-joined reprs of dict entries. -/
def reprPairsF (funs : List FunObj) : Nat → List (Value × Value) → String
  | 0, _ => ""
  | _ + 1, [] => ""
  | fuel + 1, [(k, v)] => pyReprF funs fuel k ++ ": " ++ pyReprF funs fuel v
  | fuel + 1, (k, v) :: p :: rest =>
    pyReprF funs fuel k ++ ": " ++ pyReprF funs fuel v ++ ", " ++
      reprPairsF funs fuel (p :: rest)
end

/-- Canonical stringification (Evaluator.stringify): Nil prints nil, an
integral Float prints as an integer, functions print their descriptor,
and every other value prints its natural Python text form. -/
def stringify (funs : List FunObj) (v : Value) : String :=
  match v with
  | .vnil => "nil"
  | .vfloat q => qStr q
  | .vfun i => funStr funs i
  | .vbuiltin n => "<built-in function " ++ n ++ ">"
  | .vint n => toString n
  | .vbool b => if b then "True" else "False"
  | .vstr s => s
  | .varr xs => pyReprF funs (vsize (.varr xs)) (.varr xs)
  | .vdict ps => pyReprF funs (vsize (.vdict ps)) (.vdict ps)

/-- Evaluation-time signals: FluxRuntimeError, the Return control signal,
the TailCall control signal, uncaught host exceptions, and exhaustion of
the step fuel (a model artifact marking insufficient fuel, never the
result of a converging source computation). -/
inductive Exc where
  | flux (msg : String)
  | retS (v : Value)
  | tailS (fid : Nat) (args : List Value)
  | internal (msg : String)
  | fuelOut
deriving Repr

/-- Values acceptable on either side of + next to a string: the source
accepts int, float, bool and Function (not BuiltinFunction) for coercion. -/
def strCoercible : Value → Bool
  | .vint _ => true
  | .vfloat _ => true
  | .vbool _ => true
  | .vfun _ => true
  | _ => false

/-- Negation of a number (unary minus). -/
def negNum : NumV → Value
  | .ivar n => .vint (-n)
  | .fvar q => .vfloat (-q)

/-- Python ** on numbers.  int ** nonnegative-int is an int; a negative
exponent produces a float, except that a zero base raises an uncaught host
ZeroDivisionError.  A float operand with an integral exponent follows the
same rules; a fractional exponent leaves the exact-rational float model
(Python would produce an irrational float or a complex number) and is
reported as a host-level result outside the model. -/
def powNum : NumV → NumV → Except Exc Value
  | .ivar a, .ivar b =>
    if 0 ≤ b then .ok (.vint (a ^ b.toNat))
    else if a = 0 then .error (.internal "ZeroDivisionError: zero to a negative power")
    else .ok (.vfloat ((a : ℚ) ^ b))
  | a, b =>
    let qa := numQ a
    let qb := numQ b
    if qb.den = 1 then
      if qa = 0 && decide (qb.num < 0) then
        .error (.internal "ZeroDivisionError: zero to a negative power")
      else .ok (.vfloat (qa ^ qb.num))
    else .error (.internal "non-rational float power, outside the exact-float model")

/-- The operator dispatch of visit_bin_op after both operands have been
evaluated.  The branch order and the checks mirror the source: `+` tries
numbers, then string/string, then string coercion; `- * / ** %` and the
four comparisons require check_number_operands (which, being isinstance
based, also accepts Booleans); `/` and `%` test the right operand against
zero by value equality; `==` and `!=` use Python value equality on any
operands; `and` and `or` combine the truthiness of both operands. -/
def evalBinOpV (funs : List FunObj) (op : Op) (left right : Value) : Except Exc Value :=
  match op with
  | .plus =>
    match asNum left, asNum right with
    | some a, some b => .ok (addNum a b)
    | _, _ =>
      match left, right with
      | .vstr s, .vstr t => .ok (.vstr (s ++ t))
      | .vstr s, r =>
        if strCoercible r then .ok (.vstr (s ++ stringify funs r))
        else .error (.flux "Operands must be two numbers, two strings, or a string and another type for +")
      | l, .vstr t =>
        if strCoercible l then .ok (.vstr (stringify funs l ++ t))
        else .error (.flux "Operands must be two numbers, two strings, or a string and another type for +")
      | _, _ => .error (.flux "Operands must be two numbers, two strings, or a string and another type for +")
  | .minus =>
    match asNum left, asNum right with
    | some a, some b => .ok (subNum a b)
    | _, _ => .error (.flux "Operands must be numbers")
  | .multiply =>
    match asNum left, asNum right with
    | some a, some b => .ok (mulNum a b)
    | _, _ => .error (.flux "Operands must be numbers")
  | .divide =>
    match asNum left, asNum right with
    | some a, some b =>
      if numEq b (.ivar 0) then .error (.flux "Division by zero")
      else .ok (divNum a b)
    | _, _ => .error (.flux "Operands must be numbers")
  | .exponent =>
    match asNum left, asNum right with
    | some a, some b => powNum a b
    | _, _ => .error (.flux "Operands must be numbers")
  | .rem =>
    match asNum left, asNum right with
    | some a, some b =>
      if numEq b (.ivar 0) then .error (.flux "Remainder by zero")
      else .ok (modNum a b)
    | _, _ => .error (.flux "Operands must be numbers")
  | .lt =>
    match asNum left, asNum right with
    | some a, some b => .ok (.vbool (numLt a b))
    | _, _ => .error (.flux "Operands must be numbers")
  | .gt =>
    match asNum left, asNum right with
    | some a, some b => .ok (.vbool (numLt b a))
    | _, _ => .error (.flux "Operands must be numbers")
  | .lte =>
    match asNum left, asNum right with
    | some a, some b => .ok (.vbool (numLe a b))
    | _, _ => .error (.flux "Operands must be numbers")
  | .gte =>
    match asNum left, asNum right with
    | some a, some b => .ok (.vbool (numLe b a))
    | _, _ => .error (.flux "Operands must be numbers")
  | .eqeq => .ok (.vbool (pyEq left right))
  | .noteq => .ok (.vbool (!pyEq left right))
  | .andO => .ok (.vbool (isTruthy left && isTruthy right))
  | .orO => .ok (.vbool (isTruthy left || isTruthy right))
  | .notO => .error (.flux "Unknown binary operator")

/-- The builtin len: one argument; None is rejected; arrays, strings and
dicts report their element count; other values are a type error. -/
def builtinLen (args : List Value) : Except Exc Value :=
  match args with
  | [a] =>
    match a with
    | .vnil => .error (.flux "len cannot be applied to None")
    | .varr xs => .ok (.vint xs.length)
    | .vstr s => .ok (.vint s.length)
    | .vdict ps => .ok (.vint ps.length)
    | _ => .error (.flux "len expects an array, string, or dictionary")
  | _ => .error (.flux "len expected 1 argument")

/-- Dispatch of BuiltinFunction.call: the registry installs exactly len. -/
def callBuiltin (name : String) (args : List Value) : Except Exc Value :=
  if name = "len" then builtinLen args
  else .error (.internal "unknown builtin")

/-- Dict-comprehension insertion: overwriting an equal key keeps the
original key and position, as a Python dict does. -/
def dictInsert : List (Value × Value) → Value → Value → List (Value × Value)
  | [], k, v => [(k, v)]
  | (k2, v2) :: rest, k, v =>
    if pyEq k2 k then (k2, v) :: rest else (k2, v2) :: dictInsert rest k v

/-- Array index extraction per isinstance(index, int), which accepts
Python bools as well. -/
def toIndex : Value → Option Int
  | .vint n => some n
  | .vbool b => some (if b then 1 else 0)
  | _ => none

/-- Interpreter state: the frame heap, the function heap, the text printed
so far, and the mutable Evaluator attributes env, current_function and
in_tail_position.  depth counts the currently active Function.call native
frames and maxDepth their high-water mark (the resource the tail-call
machinery is meant to bound). -/
structure St where
  frames : List Frame
  funs : List FunObj
  out : List String
  env : Nat
  curFun : Option Nat
  inTail : Bool
  depth : Nat
  maxDepth : Nat

/-- Allocate a fresh child Environment whose parent is the given frame. -/
def allocFrame (st : St) (parent : Nat) : Nat × St :=
  (st.frames.length, { st with frames := st.frames ++ [{ vars := [], parent := some parent }] })

/-- Environment.define on the frame heap. -/
def defineIn (st : St) (i : Nat) (x : String) (v : Value) : St :=
  { st with frames := envDefine st.frames i x v }

/-- Bind each parameter to its argument in the fresh call Environment. -/
def defineParams (st : St) (i : Nat) : List (String × Value) → St
  | [] => st
  | (x, v) :: rest => defineParams (defineIn st i x v) i rest

/-- Rebind each parameter via Environment.assign, as the trampoline loop
of Function.call does between iterations. -/
def assignParams (frames : List Frame) (i : Nat) :
    List (String × Value) → Option (List Frame)
  | [] => some frames
  | (x, v) :: rest =>
    match envAssign frames i x v with
    | some frames2 => assignParams frames2 i rest
    | none => none

mutual
/-- Structural size of an AST node, for the termination measure of run. -/
def esize : Expr → Nat
  | .intL _ => 1
  | .floatL _ => 1
  | .strL _ => 1
  | .boolL _ => 1
  | .var _ => 1
  | .varAssign _ v => 1 + esize v
  | .varReassign _ v => 1 + esize v
  | .binOp _ l r => 1 + esize l + esize r
  | .unaryOp _ r => 1 + esize r
  | .blockE ss => 1 + esizeList ss
  | .ifE c t e => 1 + esize c + esize t + esizeOpt e
  | .whileE c b => 1 + esize c + esize b
  | .forE _ s e stp b => 1 + esize s + esize e + esizeOpt stp + esizeList b
  | .repeatE b c => 1 + esize b + esize c
  | .matchE s cs => 1 + esize s + esizePairs cs
  | .funcDef _ _ b => 1 + esizeList b
  | .lambdaE _ b => 1 + esizeList b
  | .funcCall c as => 1 + esize c + esizeList as
  | .retE v => 1 + esizeOpt v
  | .arrL es => 1 + esizeList es
  | .dictL ps => 1 + esizePairs ps
  | .condE c t e => 1 + esize c + esize t + esize e
  | .printE e => 1 + esize e
  | .arrAssign _ i v => 1 + esize i + esize v
  | .arrAccess _ i => 1 + esize i
/-- Structural size of a statement list. -/
def esizeList : List Expr → Nat
  | [] => 1
  | e :: es => 1 + esize e + esizeList es
/-- Structural size of an optional node. -/
def esizeOpt : Option Expr → Nat
  | none => 1
  | some e => 1 + esize e
/-- Structural size of a case list. -/
def esizePairs : List (Expr × Expr) → Nat
  | [] => 1
  | (a, b) :: ps => 1 + esize a + esize b + esizePairs ps
end

/-- Work items of the interpreter: expression evaluation, argument and
dict-pair evaluation, the statement loop of execute_block, the case scan
of visit_match, the loops of while/for/repeat, Function.call entry, and
its trampoline loop. -/
inductive Req where
  | expr (e : Expr)
  | argsL (es : List Expr) (acc : List Value)
  | pairsL (ps : List (Expr × Expr)) (acc : List (Value × Value))
  | blockEnter (ss : List Expr) (envId : Nat)
  | blockLoop (ss : List Expr) (res : Value)
  | mcases (v : Value) (cs : List (Expr × Expr))
  | whileL (c b : Expr) (res : Value)
  | forL (varName : String) (loopEnv : Nat) (cur stop stepn : NumV)
      (body : List Expr) (res : Value)
  | repeatL (b c : Expr)
  | callF (fid : Nat) (args : List Value)
  | tramp (fid envId : Nat) (prevFun : Option Nat) (prevEnv : Nat)

/-- Answers paired with the work items. -/
inductive Ans where
  | val (v : Value)
  | vals (vs : List Value)
  | pairs (ps : List (Value × Value))
deriving Repr

/-- Termination measure over work items: loop edges of the interpreter
consume a unit of fuel, every other recursive call strictly reduces this
size, so evaluation is well founded on (fuel, reqSize). -/
def reqSize : Req → Nat
  | .expr e => 4 * esize e
  | .argsL es _ => 4 * esizeList es
  | .pairsL ps _ => 4 * esizePairs ps
  | .blockEnter ss _ => 4 * esizeList ss + 2
  | .blockLoop ss _ => 4 * esizeList ss + 1
  | .mcases _ cs => 4 * esizePairs cs + 1
  | .whileL c b _ => 4 * esize c + 4 * esize b + 3
  | .forL _ _ _ _ _ body _ => 4 * esizeList body + 3
  | .repeatL b c => 4 * esize b + 4 * esize c + 3
  | .callF _ _ => 1
  | .tramp _ _ _ _ => 0

/-- Bind on evaluation results carrying a single value: errors and control
signals propagate unchanged, as every evaluation site of the source lets
exceptions fly untouched. -/
def andThenV (r : Except Exc Ans × St) (k : Value → St → Except Exc Ans × St) :
    Except Exc Ans × St :=
  match r with
  | (.ok (.val v), st) => k v st
  | (.ok _, st) => (.error (.internal "bad answer"), st)
  | (.error ex, st) => (.error ex, st)

/-- Bind on evaluated argument lists. -/
def andThenVs (r : Except Exc Ans × St) (k : List Value → St → Except Exc Ans × St) :
    Except Exc Ans × St :=
  match r with
  | (.ok (.vals vs), st) => k vs st
  | (.ok _, st) => (.error (.internal "bad answer"), st)
  | (.error ex, st) => (.error ex, st)

/-- Bind on evaluated dict pair lists. -/
def andThenPs (r : Except Exc Ans × St) (k : List (Value × Value) → St → Except Exc Ans × St) :
    Except Exc Ans × St :=
  match r with
  | (.ok (.pairs ps), st) => k ps st
  | (.ok _, st) => (.error (.internal "bad answer"), st)
  | (.error ex, st) => (.error ex, st)

/-- The finally clause of visit_return: the in_tail_position flag is put
back on every exit, normal or exceptional. -/
def finTail (was : Bool) (r : Except Exc Ans × St) : Except Exc Ans × St :=
  (r.1, { r.2 with inTail := was })

/-- The finally clause of execute_block: self.env is put back on every
exit, normal or exceptional. -/
def finEnv (prevEnv : Nat) (r : Except Exc Ans × St) : Except Exc Ans × St :=
  (r.1, { r.2 with env := prevEnv })

/-- Native-frame exit of Function.call: the host stack frame pops on every
exit, so the modelled depth is restored unconditionally. -/
def finDepth (old : Nat) (r : Except Exc Ans × St) : Except Exc Ans × St :=
  (r.1, { r.2 with depth := old })

/-- Lift a pure operator outcome into an evaluation result. -/
def liftR (st : St) : Except Exc Value → Except Exc Ans × St
  | .ok v => (.ok (.val v), st)
  | .error ex => (.error ex, st)

/-- Identity test of visit_func_call: callee == self.current_function. -/
def eqSomeFid : Option Nat → Nat → Bool
  | some g, fid => decide (fid = g)
  | none, _ => false

/-- current += step of visit_for, with Python numeric promotion. -/
def stepAdd : NumV → NumV → NumV
  | .ivar a, .ivar b => .ivar (a + b)
  | a, b => .fvar (numQ a + numQ b)

/-- Pack a number back into a runtime value. -/
def numToValue : NumV → Value
  | .ivar n => .vint n
  | .fvar q => .vfloat q

/-- The checks and the write of visit_array_assign after the index and the
value have been evaluated: the target must hold an Array, the index must
be an int (bools included) in bounds; the element is replaced and the
array is re-bound to the variable. -/
def arrStore (name : String) (arrv iv vv : Value) (st : St) : Except Exc Ans × St :=
  match arrv with
  | .varr xs =>
    match toIndex iv with
    | some i =>
      if i < 0 || i ≥ (xs.length : Int) then
        (.error (.flux "Array index out of bounds"), st)
      else
        match envAssign st.frames st.env name (.varr (xs.set i.toNat vv)) with
        | some frames2 => (.ok (.val vv), { st with frames := frames2 })
        | none => (.error (.flux ("Cannot reassign undefined variable " ++ name)), st)
    | none => (.error (.flux "Array index must be an integer"), st)
  | _ => (.error (.flux "Cannot assign to non-array type"), st)

/-- The checks and the read of visit_array_access after the index has been
evaluated. -/
def arrRead (arrv iv : Value) (st : St) : Except Exc Ans × St :=
  match arrv with
  | .varr xs =>
    match toIndex iv with
    | some i =>
      if i < 0 || i ≥ (xs.length : Int) then
        (.error (.flux "Array index out of bounds"), st)
      else
        match xs[i.toNat]? with
        | some x => (.ok (.val x), st)
        | none => (.error (.flux "Array index out of bounds"), st)
    | none => (.error (.flux "Array index must be an integer"), st)
  | _ => (.error (.flux "Cannot index non-array type"), st)

/-- The evaluator.  One work item is processed against the state; recursive
work either descends into strictly smaller work (expression structure) or
crosses a loop edge (the trampoline of Function.call and the while/for/
repeat iterations), which consumes one unit of fuel.  Each arm translates
the correspondingly named visitor of the source; the try/finally discipline
of execute_block, visit_return and Function.call (which state is restored
on which exits) is reproduced exactly.  The cfg flag selects the source
semantics (true: the tail-call machinery of visit_func_call and
visit_return is active) or the naive reference semantics (false: the two
TailCall raise sites are disabled and every call is an ordinary call);
everything else is shared. -/
def run (cfg : Bool) (fuel : Nat) (req : Req) (st : St) : Except Exc Ans × St :=
  match req with
  | .expr e =>
    match e with
    | .intL n => (.ok (.val (.vint n)), st)
    | .floatL q => (.ok (.val (.vfloat q)), st)
    | .strL s => (.ok (.val (.vstr s)), st)
    | .boolL b => (.ok (.val (.vbool b)), st)
    | .var x =>
      match envGet st.frames st.env x with
      | some v => (.ok (.val v), st)
      | none => (.error (.flux ("Undefined variable " ++ x)), st)
    | .varAssign x ve =>
      andThenV (run cfg fuel (.expr ve) st) fun v st1 =>
        (.ok (.val v), defineIn st1 st1.env x v)
    | .varReassign x ve =>
      andThenV (run cfg fuel (.expr ve) st) fun v st1 =>
        match envAssign st1.frames st1.env x v with
        | some frames2 => (.ok (.val v), { st1 with frames := frames2 })
        | none => (.error (.flux ("Cannot reassign undefined variable " ++ x)), st1)
    | .binOp op l r =>
      andThenV (run cfg fuel (.expr l) st) fun lv st1 =>
        andThenV (run cfg fuel (.expr r) st1) fun rv st2 =>
          liftR st2 (evalBinOpV st2.funs op lv rv)
    | .unaryOp op re =>
      andThenV (run cfg fuel (.expr re) st) fun v st1 =>
        match op with
        | .minus =>
          match asNum v with
          | some a => (.ok (.val (negNum a)), st1)
          | none => (.error (.flux "Operand must be a number"), st1)
        | .notO => (.ok (.val (.vbool (!isTruthy v))), st1)
        | _ => (.error (.flux "Unknown unary operator"), st1)
    | .blockE ss =>
      let (envId, st1) := allocFrame st st.env
      run cfg fuel (.blockEnter ss envId) st1
    | .ifE ce te ee =>
      andThenV (run cfg fuel (.expr ce) st) fun cv st1 =>
        if isTruthy cv then run cfg fuel (.expr te) st1
        else
          match ee with
          | some el => run cfg fuel (.expr el) st1
          | none => (.ok (.val .vnil), st1)
    | .whileE ce be => run cfg fuel (.whileL ce be .vnil) st
    | .forE varName startE stopE stepE body =>
      andThenV (run cfg fuel (.expr startE) st) fun sv st1 =>
      andThenV (run cfg fuel (.expr stopE) st1) fun ev st2 =>
      match stepE with
      | some se =>
        andThenV (run cfg fuel (.expr se) st2) fun pv st3 =>
        match asNum sv, asNum ev, asNum pv with
        | none, _, _ => (.error (.flux "Start value must be a number"), st3)
        | some _, none, _ => (.error (.flux "End value must be a number"), st3)
        | some _, some _, none => (.error (.flux "Step value must be a number"), st3)
        | some a, some b, some p =>
          if numEq p (.ivar 0) then (.error (.flux "Step cannot be zero"), st3)
          else
            let (loopEnv, st4) := allocFrame st3 st3.env
            run cfg fuel (.forL varName loopEnv a b p body .vnil)
              (defineIn st4 loopEnv varName sv)
      | none =>
        match asNum sv, asNum ev with
        | none, _ => (.error (.flux "Start value must be a number"), st2)
        | some _, none => (.error (.flux "End value must be a number"), st2)
        | some a, some b =>
          let (loopEnv, st4) := allocFrame st2 st2.env
          run cfg fuel (.forL varName loopEnv a b (.ivar 1) body .vnil)
            (defineIn st4 loopEnv varName sv)
    | .repeatE be ce => run cfg fuel (.repeatL be ce) st
    | .matchE se cases =>
      andThenV (run cfg fuel (.expr se) st) fun v st1 =>
        run cfg fuel (.mcases v cases) st1
    | .funcDef name params body =>
      let fid := st.funs.length
      let st1 := { st with funs := st.funs ++ [{ name := name, params := params, body := body, closure := st.env, anonymous := false }] }
      (.ok (.val (.vfun fid)), defineIn st1 st1.env name (.vfun fid))
    | .lambdaE params body =>
      let fid := st.funs.length
      (.ok (.val (.vfun fid)),
        { st with funs := st.funs ++ [{ name := "<anonymous>", params := params, body := body, closure := st.env, anonymous := true }] })
    | .funcCall ce args =>
      andThenV (run cfg fuel (.expr ce) st) fun cv st1 =>
        match cv with
        | .vfun fid =>
          andThenVs (run cfg fuel (.argsL args []) st1) fun avs st2 =>
            if cfg && st2.inTail && eqSomeFid st2.curFun fid then
              (.error (.tailS fid avs), st2)
            else run cfg fuel (.callF fid avs) st2
        | .vbuiltin bname =>
          andThenVs (run cfg fuel (.argsL args []) st1) fun avs st2 =>
            liftR st2 (callBuiltin bname avs)
        | _ => (.error (.flux "Can only call functions"), st1)
    | .retE valueOpt =>
      let was := st.inTail
      let st0 := { st with inTail := st.curFun.isSome }
      match valueOpt with
      | none => (.error (.retS .vnil), { st0 with inTail := was })
      | some ve =>
        finTail was
          (andThenV (run cfg fuel (.expr ve) st0) fun v st1 =>
            match ve, cfg with
            | .funcCall ce cargs, true =>
              if st1.inTail then
                andThenV (run cfg fuel (.expr ce) st1) fun cv st2 =>
                  andThenVs (run cfg fuel (.argsL cargs []) st2) fun avs st3 =>
                    match cv, st3.curFun with
                    | .vfun cid, some fid =>
                      if cid = fid then (.error (.tailS cid avs), st3)
                      else (.error (.retS v), st3)
                    | _, _ => (.error (.retS v), st3)
              else (.error (.retS v), st1)
            | _, _ => (.error (.retS v), st1))
    | .arrL es =>
      andThenVs (run cfg fuel (.argsL es []) st) fun vs st1 =>
        (.ok (.val (.varr vs)), st1)
    | .dictL ps =>
      andThenPs (run cfg fuel (.pairsL ps []) st) fun qs st1 =>
        (.ok (.val (.vdict qs)), st1)
    | .condE ce te ee =>
      andThenV (run cfg fuel (.expr ce) st) fun cv st1 =>
        if isTruthy cv then run cfg fuel (.expr te) st1
        else run cfg fuel (.expr ee) st1
    | .printE pe =>
      andThenV (run cfg fuel (.expr pe) st) fun v st1 =>
        (.ok (.val v), { st1 with out := st1.out ++ [stringify st1.funs v] })
    | .arrAssign name idxE valE =>
      match envGet st.frames st.env name with
      | none => (.error (.flux ("Undefined variable " ++ name)), st)
      | some arrv =>
        andThenV (run cfg fuel (.expr idxE) st) fun iv st1 =>
          andThenV (run cfg fuel (.expr valE) st1) fun vv st2 =>
            arrStore name arrv iv vv st2
    | .arrAccess name idxE =>
      match envGet st.frames st.env name with
      | none => (.error (.flux ("Undefined variable " ++ name)), st)
      | some arrv =>
        andThenV (run cfg fuel (.expr idxE) st) fun iv st1 =>
          arrRead arrv iv st1
  | .argsL es acc =>
    match es with
    | [] => (.ok (.vals acc), st)
    | e :: rest =>
      andThenV (run cfg fuel (.expr e) st) fun v st1 =>
        run cfg fuel (.argsL rest (acc ++ [v])) st1
  | .pairsL ps acc =>
    match ps with
    | [] => (.ok (.pairs acc), st)
    | (ke, ve) :: rest =>
      andThenV (run cfg fuel (.expr ke) st) fun k st1 =>
        andThenV (run cfg fuel (.expr ve) st1) fun v st2 =>
          run cfg fuel (.pairsL rest (dictInsert acc k v)) st2
  | .blockEnter ss envId =>
    finEnv st.env (run cfg fuel (.blockLoop ss .vnil) { st with env := envId })
  | .blockLoop ss res =>
    match ss with
    | [] => (.ok (.val res), st)
    | stmt :: rest =>
      let oldTail := st.inTail
      let st1 :=
        if rest.isEmpty then { st with inTail := st.inTail || st.curFun.isSome }
        else st
      andThenV (run cfg fuel (.expr stmt) st1) fun v st2 =>
        run cfg fuel (.blockLoop rest v) { st2 with inTail := oldTail }
  | .mcases v cs =>
    match cs with
    | [] => (.error (.flux "No matching case found"), st)
    | (pe, be) :: rest =>
      andThenV (run cfg fuel (.expr pe) st) fun pv st1 =>
        if pyEq v pv then run cfg fuel (.expr be) st1
        else run cfg fuel (.mcases v rest) st1
  | .whileL ce be res =>
    andThenV (run cfg fuel (.expr ce) st) fun cv st1 =>
      if isTruthy cv then
        andThenV (run cfg fuel (.expr be) st1) fun bv st2 =>
          if _h : fuel = 0 then (.error .fuelOut, st2)
          else run cfg (fuel - 1) (.whileL ce be bv) st2
      else (.ok (.val res), st1)
  | .forL varName loopEnv cur stop stepn body res =>
    if (numLt (.ivar 0) stepn && numLe cur stop) || (numLt stepn (.ivar 0) && numLe stop cur) then
      let (bodyEnv, st1) := allocFrame st loopEnv
      andThenV (run cfg fuel (.blockEnter body bodyEnv) st1) fun v st2 =>
        let cur2 := stepAdd cur stepn
        match envAssign st2.frames loopEnv varName (numToValue cur2) with
        | some frames2 =>
          if _h : fuel = 0 then (.error .fuelOut, { st2 with frames := frames2 })
          else run cfg (fuel - 1) (.forL varName loopEnv cur2 stop stepn body v)
                 { st2 with frames := frames2 }
        | none => (.error (.flux ("Cannot reassign undefined variable " ++ varName)), st2)
    else (.ok (.val res), st)
  | .repeatL be ce =>
    andThenV (run cfg fuel (.expr be) st) fun bv st1 =>
      andThenV (run cfg fuel (.expr ce) st1) fun cv st2 =>
        if isTruthy cv then (.ok (.val bv), st2)
        else if _h : fuel = 0 then (.error .fuelOut, st2)
        else run cfg (fuel - 1) (.repeatL be ce) st2
  | .callF fid args =>
    match st.funs[fid]? with
    | none => (.error (.internal "missing function object"), st)
    | some fo =>
      if args.length ≠ fo.params.length then
        (.error (.flux "Wrong number of arguments"), st)
      else
        let (envId, st1) := allocFrame st fo.closure
        let st2 := defineParams st1 envId (fo.params.zip args)
        finDepth st2.depth
          (run cfg fuel (.tramp fid envId st2.curFun st2.env)
            { st2 with curFun := some fid, env := envId, depth := st2.depth + 1,
                       maxDepth := max st2.maxDepth (st2.depth + 1) })
  | .tramp fid envId prevFun prevEnv =>
    match st.funs[fid]? with
    | none => (.error (.internal "missing function object"), st)
    | some fo =>
      if _h : fuel = 0 then (.error .fuelOut, st)
      else
        match run cfg (fuel - 1) (.blockEnter fo.body envId) st with
        | (.ok (.val v), st1) =>
          (.ok (.val v), { st1 with curFun := prevFun, env := prevEnv })
        | (.error (.retS v), st1) =>
          (.ok (.val v), { st1 with curFun := prevFun, env := prevEnv })
        | (.error (.tailS tfid targs), st1) =>
          if tfid ≠ fid then
            run cfg (fuel - 1) (.callF tfid targs) { st1 with curFun := prevFun, env := prevEnv }
          else if targs.length ≠ fo.params.length then
            (.error (.flux "Wrong number of arguments"), st1)
          else
            match assignParams st1.frames envId (fo.params.zip targs) with
            | some frames2 =>
              run cfg (fuel - 1) (.tramp fid envId prevFun prevEnv) { st1 with frames := frames2 }
            | none =>
              (.error (.flux "Cannot reassign undefined variable"), st1)
        | (.ok _, st1) => (.error (.internal "bad answer"), st1)
        | (.error ex, st1) => (.error ex, st1)
termination_by (fuel, reqSize req)
decreasing_by
  all_goals
    first
    | (apply Prod.Lex.left; omega)
    | (apply Prod.Lex.right;
       simp [reqSize, esize, esizeList, esizeOpt, esizePairs]; try omega)

/-- The start state of Evaluator.__init__: one global Environment holding
the builtin registry (len), an empty function heap, no output, no current
function, and tail position off. -/
def initSt : St :=
  { frames := [{ vars := [("len", .vbuiltin "len")], parent := none }]
    funs := []
    out := []
    env := 0
    curFun := none
    inTail := false
    depth := 0
    maxDepth := 0 }

/-- Evaluator.interpret: execute the program Block directly in the global
Environment (interpret calls execute_block(tree, global_env)). -/
def runProg (cfg : Bool) (fuel : Nat) (prog : List Expr) : Except Exc Ans × St :=
  run cfg fuel (.blockEnter prog 0) initSt

/-- The factorial-shaped program of the C1 analysis: f(n) returns 1 when
n <= 1 and otherwise returns n * f(n - 1), a self-call that is a proper
subexpression of the returned product; the program then calls f on the
given argument. -/
def factProg (n : Int) : List Expr :=
  [ .funcDef "f" ["n"]
      [ .ifE (.binOp .lte (.var "n") (.intL 1)) (.blockE [.retE (some (.intL 1))]) none
      , .retE (some (.binOp .multiply (.var "n")
          (.funcCall (.var "f") [.binOp .minus (.var "n") (.intL 1)])))
      ]
  , .funcCall (.var "f") [.intL n] ]

/-- Body of the accumulator-style sum function: if n <= 0 return acc;
return sum(n - 1, acc + n) - a pure self-tail-call. -/
def sumBody : List Expr :=
  [ .ifE (.binOp .lte (.var "n") (.intL 0)) (.blockE [.retE (some (.var "acc"))]) none
  , .retE (some (.funcCall (.var "sum")
      [.binOp .minus (.var "n") (.intL 1), .binOp .plus (.var "acc") (.var "n")])) ]

/-- The tail-recursive sum program: define sum and call sum(n, 0). -/
def sumProg (n : Int) : List Expr :=
  [ .funcDef "sum" ["n", "acc"] sumBody
  , .funcCall (.var "sum") [.intL n, .intL 0] ]

/-- The directly-recursive reference implementation of the accumulator
sum, written as ordinary recursion: sumRef n acc adds n, n-1, ..., 1 to
acc. -/
def sumRef : Nat → Int → Int
  | 0, acc => acc
  | n + 1, acc => sumRef n (acc + (n + 1))

/-- The function object created by evaluating the sum definition. -/
def sumObj : FunObj :=
  { name := "sum", params := ["n", "acc"], body := sumBody, closure := 0,
    anonymous := false }

/-- The global frame after the sum definition has been evaluated. -/
def gFrame : Frame :=
  { vars := [("len", .vbuiltin "len"), ("sum", .vfun 0)], parent := none }

/-- The call Environment of the running sum invocation, holding the
current values of the two parameters. -/
def callFrame (k a : Int) : Frame :=
  { vars := [("n", .vint k), ("acc", .vint a)], parent := some 0 }

/-- The interpreter state at the top of a trampoline iteration: global
frame plus the (reused) call frame, sum on the function heap, current
environment the call frame, sum the current function. -/
def stIter (k a : Int) (i : Bool) (o : List String) (d m : Nat) : St :=
  { frames := [gFrame, callFrame k a], funs := [sumObj], out := o, env := 1,
    curFun := some 0, inTail := i, depth := d, maxDepth := m }

/-- The state right after the body signals Return in the base case: the
then-Block of the conditional has allocated one child frame, the flag was
left set by the raising return, and the environment is back at the call
frame. -/
def stBase (k a : Int) (o : List String) (d m : Nat) : St :=
  { frames := [gFrame, callFrame k a, { vars := [], parent := some 1 }],
    funs := [sumObj], out := o, env := 1, curFun := some 0, inTail := true,
    depth := d, maxDepth := m }

/-- The state after the whole invocation finishes: the parameters hold the
final iteration values, current function and environment are restored, and
maxDepth never moved - the trampoline reuses the one native frame. -/
def finalSt (k : Nat) (a : Int) (o : List String) (d m : Nat) : St :=
  { frames := [gFrame, callFrame 0 (sumRef k a), { vars := [], parent := some 1 }],
    funs := [sumObj], out := o, env := 0, curFun := none, inTail := true,
    depth := d, maxDepth := m }

/-- C7: the truthiness rule maps every runtime value to a Boolean: Nil,
Boolean false, Integer 0, Float 0.0 and the empty String are the only
false values; every other value, including the empty Array, the empty
Dict, every non-zero number, every non-empty String and every function
value, is true. -/
theorem c7_truthiness (v : Value) :
    isTruthy v = false ↔
      (v = .vnil ∨ v = .vbool false ∨ v = .vint 0 ∨ v = .vfloat 0 ∨ v = .vstr "") := by
  cases v <;> simp [isTruthy]

/-- C5 counterexample: on the code, == does coerce across value kinds:
the Boolean true compares equal to the Integer 1 (Python bool being an
int subclass), so the program true == 1 yields true, refuting the claim
that values of different kinds never compare equal. -/
theorem c5_counterexample :
    (runProg true 1 [.binOp .eqeq (.boolL true) (.intL 1)]).1 =
      .ok (.val (.vbool true)) := by
  simp [runProg, initSt, run, andThenV, andThenVs, andThenPs, liftR, finEnv,
    finTail, finDepth, evalBinOpV, pyEq, pyEqF, vsize, asNum, numEq, allocFrame]

/-- Value kinds accepted by check_number_operands: Integer, Float, and
(because isinstance(x, int) is true of Python bools) Boolean. -/
def numericKind : Value → Bool
  | .vint _ => true
  | .vfloat _ => true
  | .vbool _ => true
  | _ => false

theorem asNum_isSome_iff (v : Value) : (asNum v).isSome = numericKind v := by
  cases v <;> simp [asNum, numericKind]

/-- C5 amended: == and != always succeed on any two runtime values and
test Python value equality, which is structural except that the three
numeric kinds compare by magnitude across kinds: a String never equals an
Integer or a Float, but Boolean true does equal Integer 1 (and false
equals 0), since Python bool is an int subclass. -/
theorem c5_equality_semantics :
    (∀ (funs : List FunObj) (l r : Value),
        evalBinOpV funs .eqeq l r = .ok (.vbool (pyEq l r)) ∧
        evalBinOpV funs .noteq l r = .ok (.vbool (!pyEq l r))) ∧
    (∀ (s : String) (n : Int), pyEq (.vstr s) (.vint n) = false) ∧
    (∀ (s : String) (n : Int), pyEq (.vint n) (.vstr s) = false) ∧
    (∀ (s : String) (q : ℚ), pyEq (.vstr s) (.vfloat q) = false) ∧
    (∀ (s : String) (q : ℚ), pyEq (.vfloat q) (.vstr s) = false) ∧
    pyEq (.vbool true) (.vint 1) = true ∧
    pyEq (.vbool false) (.vint 0) = true := by
  refine ⟨fun funs l r => ⟨rfl, rfl⟩, ?_, ?_, ?_, ?_, by decide, by decide⟩ <;>
    intro s x <;> simp [pyEq, pyEqF, vsize, asNum]

/-- C3 counterexample: the comparison true < 5 does not fail with a type
error; it succeeds and yields true, because check_number_operands accepts
Boolean operands (isinstance(True, int) holds in the host language). -/
theorem c3_counterexample :
    (runProg true 1 [.binOp .lt (.boolL true) (.intL 5)]).1 =
      .ok (.val (.vbool true)) := by
  simp [runProg, initSt, run, andThenV, andThenVs, liftR, finEnv, evalBinOpV,
    asNum, numLt, allocFrame]

/-- C3 amended: for the arithmetic operators minus, times, divide, power
and remainder and the four comparisons, an operand of kind String, Nil,
Array, Dict, Function or BuiltinFunction raises the Operands-must-be-
numbers type error, while operands of the numeric kinds (Integer, Float,
and also Boolean, treated as 1 or 0) pass the check: subtraction,
multiplication and the comparisons then always succeed, division and
remainder succeed when the right value is nonzero, and power succeeds for
an integer exponent that is nonnegative or has a nonzero base. -/
theorem c3_operand_checks :
    (∀ (funs : List FunObj) (op : Op) (l r : Value),
        (op = .minus ∨ op = .multiply ∨ op = .divide ∨ op = .exponent ∨
         op = .rem ∨ op = .lt ∨ op = .gt ∨ op = .lte ∨ op = .gte) →
        (numericKind l = false ∨ numericKind r = false) →
        evalBinOpV funs op l r = .error (.flux "Operands must be numbers")) ∧
    (∀ (funs : List FunObj) (l r : Value) (a b : NumV),
        asNum l = some a → asNum r = some b →
        evalBinOpV funs .minus l r = .ok (subNum a b) ∧
        evalBinOpV funs .multiply l r = .ok (mulNum a b) ∧
        evalBinOpV funs .lt l r = .ok (.vbool (numLt a b)) ∧
        evalBinOpV funs .gt l r = .ok (.vbool (numLt b a)) ∧
        evalBinOpV funs .lte l r = .ok (.vbool (numLe a b)) ∧
        evalBinOpV funs .gte l r = .ok (.vbool (numLe b a)) ∧
        (numQ b ≠ 0 →
          evalBinOpV funs .divide l r = .ok (divNum a b) ∧
          evalBinOpV funs .rem l r = .ok (modNum a b)) ∧
        (∀ e : Int, b = .ivar e → (0 ≤ e ∨ numQ a ≠ 0) →
          ∃ v, evalBinOpV funs .exponent l r = .ok v)) := by
  constructor
  · intro funs op l r hop hkind
    have hnone : asNum l = none ∨ asNum r = none := by
      rcases hkind with h | h
      · left
        cases l <;> simp_all [numericKind, asNum]
      · right
        cases r <;> simp_all [numericKind, asNum]
    rcases hnone with h | h
    · cases l <;> simp [asNum] at h <;>
        rcases hop with rfl | rfl | rfl | rfl | rfl | rfl | rfl | rfl | rfl <;>
          simp [evalBinOpV, asNum]
    · cases r <;> simp [asNum] at h <;>
        cases l <;>
          rcases hop with rfl | rfl | rfl | rfl | rfl | rfl | rfl | rfl | rfl <;>
            simp [evalBinOpV, asNum]
  · intro funs l r a b ha hb
    have hzne : numQ b ≠ 0 → numEq b (.ivar 0) = false := by
      intro hz
      cases b with
      | ivar n =>
        simp only [numEq]
        simp only [numQ] at hz
        simpa using fun hn => hz (by exact_mod_cast congrArg (Int.cast : Int → ℚ) hn)
      | fvar q =>
        simp only [numEq, numQ] at hz ⊢
        simpa using hz
    refine ⟨by simp [evalBinOpV, ha, hb], by simp [evalBinOpV, ha, hb],
      by simp [evalBinOpV, ha, hb], by simp [evalBinOpV, ha, hb],
      by simp [evalBinOpV, ha, hb], by simp [evalBinOpV, ha, hb], ?_, ?_⟩
    · intro hz
      constructor <;> simp [evalBinOpV, ha, hb, hzne hz]
    · intro e hbe hcond
      subst hbe
      cases a with
      | ivar m =>
        by_cases hme : 0 ≤ e
        · refine ⟨.vint (m ^ e.toNat), ?_⟩
          simp [evalBinOpV, ha, hb, powNum, hme]
        · have hm : ¬(m = 0) := by
            rcases hcond with h | h
            · exact absurd h hme
            · simpa [numQ, Int.cast_eq_zero] using h
          refine ⟨.vfloat ((m : ℚ) ^ e), ?_⟩
          simp [evalBinOpV, ha, hb, powNum, hme, hm]
      | fvar q =>
        refine ⟨.vfloat (q ^ e), ?_⟩
        by_cases hq : q = 0
        · have he : 0 ≤ e := by
            rcases hcond with h | h
            · exact h
            · exact absurd (by simp [numQ, hq]) h
          have hne : ¬(e < 0) := by omega
          simp [evalBinOpV, ha, hb, powNum, numQ, hq, hne]
        · simp [evalBinOpV, ha, hb, powNum, numQ, hq]

/-- C4: for numeric operands, division and remainder test the right
operand against zero by value (Integer 0 and Float 0.0 alike) and fail
with the dedicated errors; a nonzero right operand always succeeds, the
quotient being the exact float with q * b = a and the remainder being the
floor-style remainder a - b * floor(a / b). -/
theorem c4_zero_division (funs : List FunObj) (l r : Value) (a b : NumV)
    (ha : asNum l = some a) (hb : asNum r = some b) :
    (numQ b = 0 →
       evalBinOpV funs .divide l r = .error (.flux "Division by zero") ∧
       evalBinOpV funs .rem l r = .error (.flux "Remainder by zero")) ∧
    (numQ b ≠ 0 →
       (∃ q : ℚ, evalBinOpV funs .divide l r = .ok (.vfloat q) ∧ q * numQ b = numQ a) ∧
       (∃ m : NumV, evalBinOpV funs .rem l r = .ok (modNum a b) ∧
          asNum (modNum a b) = some m ∧
          numQ m = numQ a - numQ b * ⌊numQ a / numQ b⌋)) := by
  constructor
  · intro hz
    have hzeq : numEq b (.ivar 0) = true := by
      cases b with
      | ivar n =>
        simp only [numQ, Int.cast_eq_zero] at hz
        simp [numEq, hz]
      | fvar q =>
        simp only [numQ] at hz
        simp [numEq, numQ, hz]
    constructor <;> simp [evalBinOpV, ha, hb, hzeq]
  · intro hz
    have hzeq : numEq b (.ivar 0) = false := by
      cases b with
      | ivar n =>
        simp only [numQ] at hz
        simp only [numEq, decide_eq_false_iff_not]
        exact_mod_cast fun hn => hz (by exact_mod_cast congrArg (Int.cast : Int → ℚ) hn)
      | fvar q =>
        simp only [numQ] at hz
        simp [numEq, numQ, hz]
    refine ⟨⟨numQ a / numQ b, ?_, div_mul_cancel₀ _ hz⟩, ?_⟩
    · simp [evalBinOpV, ha, hb, hzeq, divNum]
    · have hm : ∃ m : NumV, asNum (modNum a b) = some m ∧
          numQ m = numQ a - numQ b * ⌊numQ a / numQ b⌋ := by
        cases a <;> cases b <;> refine ⟨_, rfl, ?_⟩ <;>
          simp [modNum, numQ]
      obtain ⟨m, hm1, hm2⟩ := hm
      exact ⟨m, by simp [evalBinOpV, ha, hb, hzeq], hm1, hm2⟩
  
/-- Witness for the zero and nonzero branches of division and remainder at
concrete integers. -/
theorem c4_zero_division_witness :
    evalBinOpV [] .divide (.vint 7) (.vint 0) = .error (.flux "Division by zero") ∧
    evalBinOpV [] .rem (.vint 7) (.vint 0) = .error (.flux "Remainder by zero") ∧
    (∃ q : ℚ, evalBinOpV [] .divide (.vint 7) (.vint 2) = .ok (.vfloat q) ∧ q * (2 : ℚ) = 7) := by
  have h0 := (c4_zero_division [] (.vint 7) (.vint 0) (.ivar 7) (.ivar 0) rfl rfl).1
    (by simp [numQ])
  have h2 := ((c4_zero_division [] (.vint 7) (.vint 2) (.ivar 7) (.ivar 2) rfl rfl).2
    (by norm_num [numQ])).1
  refine ⟨h0.1, h0.2, ?_⟩
  obtain ⟨q, hq1, hq2⟩ := h2
  exact ⟨q, hq1, by simpa [numQ] using hq2⟩

/-- C10: / on two Integers is true division: with a nonzero divisor it
always produces a Float equal to the exact quotient, never an Integer,
even when the division is even; 4 / 2 yields Float 2.0, which stringifies
as 2 with no fractional part. -/
theorem c10_true_division :
    (∀ (funs : List FunObj) (a b : Int), b ≠ 0 →
        evalBinOpV funs .divide (.vint a) (.vint b) = .ok (.vfloat ((a : ℚ) / (b : ℚ)))) ∧
    (runProg true 0 [.binOp .divide (.intL 4) (.intL 2)]).1 = .ok (.val (.vfloat 2)) ∧
    stringify [] (.vfloat 2) = "2" := by
  refine ⟨?_, ?_, by rfl⟩
  · intro funs a b hb
    simp [evalBinOpV, asNum, numEq, numQ, divNum, hb]
  · simp [runProg, initSt, run, andThenV, liftR, finEnv, allocFrame, evalBinOpV,
      asNum, numEq, numQ, divNum]
    norm_num

/-- Witness: true division applied at 4 and 2 gives the Float 2. -/
theorem c10_true_division_witness :
    evalBinOpV [] .divide (.vint 4) (.vint 2) = .ok (.vfloat 2) := by
  have h := c10_true_division.1 [] 4 2 (by decide)
  simpa [show ((4 : ℚ) / (2 : ℚ)) = 2 by norm_num] using h

/-- C6: logical and and or do not short-circuit: the right operand is
evaluated even when the left already decides the outcome (its state
effects, such as printed output, land in the final state), and the result
is the Boolean combination of the two truthiness values. -/
theorem c6_eager_logic (cfg : Bool) (fuel : Nat) (l r : Expr) (st st1 st2 : St)
    (v1 v2 : Value)
    (hl : run cfg fuel (.expr l) st = (.ok (.val v1), st1))
    (hr : run cfg fuel (.expr r) st1 = (.ok (.val v2), st2)) :
    run cfg fuel (.expr (.binOp .andO l r)) st =
      (.ok (.val (.vbool (isTruthy v1 && isTruthy v2))), st2) ∧
    run cfg fuel (.expr (.binOp .orO l r)) st =
      (.ok (.val (.vbool (isTruthy v1 || isTruthy v2))), st2) := by
  constructor <;> simp [run, hl, hr, andThenV, liftR, evalBinOpV]

/-- Witness: and with a false left operand still evaluates and prints the
right operand: both operands appear on the output in order. -/
theorem c6_eager_logic_witness :
    run true 0 (.expr (.binOp .andO (.printE (.boolL false)) (.printE (.intL 0)))) initSt =
      (.ok (.val (.vbool false)), { initSt with out := ["False", "0"] }) := by
  have h := (c6_eager_logic true 0 (.printE (.boolL false)) (.printE (.intL 0))
    initSt { initSt with out := ["False"] } { initSt with out := ["False", "0"] }
    (.vbool false) (.vint 0)
    (by simp [run, andThenV, initSt, stringify])
    (by simp [run, andThenV, initSt, stringify]; try rfl)).1
  simpa [isTruthy] using h

/-- C8: a Block evaluates in a fresh child Environment, so defining a name
inside a nested block shadows the outer binding while the block runs (the
inner read sees the inner value) and leaves the outer binding unchanged
(after the block exits the name resolves to its original value). -/
theorem c8_block_shadowing (a b : Int) :
    (runProg true 0 [.varAssign "x" (.intL a),
                     .blockE [.varAssign "x" (.intL b), .var "x"]]).1 =
      .ok (.val (.vint b)) ∧
    (runProg true 0 [.varAssign "x" (.intL a),
                     .blockE [.varAssign "x" (.intL b)],
                     .var "x"]).1 =
      .ok (.val (.vint a)) := by
  constructor <;>
    simp [runProg, initSt, run, andThenV, finEnv, allocFrame, defineIn,
      envDefine, envGet, envGetF, varsGet, varsSet]

/-- Witness: a String operand fails the numeric check for minus, while a
Boolean operand passes it for multiply and false * 2 yields 0. -/
theorem c3_operand_checks_witness :
    evalBinOpV [] .minus (.vstr "a") (.vint 1) = .error (.flux "Operands must be numbers") ∧
    evalBinOpV [] .multiply (.vbool false) (.vint 2) = .ok (.vint 0) := by
  refine ⟨c3_operand_checks.1 [] .minus (.vstr "a") (.vint 1) (Or.inl rfl) (Or.inl rfl), ?_⟩
  have h := (c3_operand_checks.2 [] (.vbool false) (.vint 2) (.ivar 0) (.ivar 2) rfl rfl).2.1
  simpa [mulNum] using h

/-- First-match lookup over integer-literal patterns, mirroring the case
scan of visit_match on already-known pattern values. -/
def findCase (v : Value) : List (Int × Expr) → Option Expr
  | [] => none
  | (n, b) :: rest => if pyEq v (.vint n) then some b else findCase v rest

theorem run_mcases_lit (cfg : Bool) (fuel : Nat) (v : Value) :
    ∀ (cases : List (Int × Expr)) (st : St),
      run cfg fuel (.mcases v (cases.map fun c => (Expr.intL c.1, c.2))) st =
        match findCase v cases with
        | some b => run cfg fuel (.expr b) st
        | none => (.error (.flux "No matching case found"), st) := by
  intro cases
  induction cases with
  | nil => intro st; simp [run, findCase]
  | cons c rest ih =>
    intro st
    obtain ⟨n, b⟩ := c
    by_cases h : pyEq v (.vint n) = true
    · simp [run, andThenV, findCase, h]
    · simp only [Bool.not_eq_true] at h
      simp [run, andThenV, findCase, h, ih]

/-- C9: a match evaluates its scrutinee exactly once, then scans the cases
in source order, testing each pattern by value equality and evaluating
only the body of the first matching case; with no matching case evaluation
fails with the no-matching-case runtime error.  Concretely, scrutinee 2
against cases 1 -> a, 2 -> b yields b; scrutinee 3 against the same cases
fails; and a run whose scrutinee, patterns and matched body all print
shows the scrutinee printed once and the pattern after the match never
evaluated. -/
theorem c9_match_first_case :
    (∀ (cfg : Bool) (fuel : Nat) (se : Expr) (v : Value) (st st1 : St)
        (cases : List (Int × Expr)),
        run cfg fuel (.expr se) st = (.ok (.val v), st1) →
        run cfg fuel (.expr (.matchE se (cases.map fun c => (Expr.intL c.1, c.2)))) st =
          match findCase v cases with
          | some b => run cfg fuel (.expr b) st1
          | none => (.error (.flux "No matching case found"), st1)) ∧
    (runProg true 0 [.matchE (.intL 2) [(.intL 1, .strL "a"), (.intL 2, .strL "b")]]).1 =
      .ok (.val (.vstr "b")) ∧
    (runProg true 0 [.matchE (.intL 3) [(.intL 1, .strL "a"), (.intL 2, .strL "b")]]).1 =
      .error (.flux "No matching case found") ∧
    (runProg true 0 [.matchE (.printE (.intL 2))
        [(.printE (.intL 1), .strL "a"),
         (.printE (.intL 2), .printE (.strL "b")),
         (.printE (.intL 3), .strL "c")]]).2.out = ["2", "1", "2", "b"] := by
  refine ⟨?_, ?_, ?_, ?_⟩
  · intro cfg fuel se v st st1 cases hse
    simp [run, hse, andThenV, run_mcases_lit]
  all_goals
    simp [runProg, initSt, run, andThenV, finEnv, allocFrame, stringify,
      pyEq, pyEqF, vsize, asNum, numEq]
  all_goals decide

/-- Witness: the general first-match lemma applied at scrutinee 2 against
the cases 1 -> a, 2 -> b yields b. -/
theorem c9_match_first_case_witness :
    run true 0 (.expr (.matchE (.intL 2) [(.intL 1, .strL "a"), (.intL 2, .strL "b")])) initSt =
      (.ok (.val (.vstr "b")), initSt) := by
  have h := c9_match_first_case.1 true 0 (.intL 2) (.vint 2) initSt initSt
    [(1, .strL "a"), (2, .strL "b")] (by simp [run])
  simpa [findCase, pyEq, pyEqF, vsize, asNum, numEq, run] using h

set_option maxHeartbeats 2000000 in
/-- C1: tail-call elimination is not observation-preserving.  In the
factorial-shaped program f(n): if n <= 1 return 1; return n * f(n - 1),
the self-call is a proper subexpression of the returned product, yet the
in_tail_position flag is still set while the argument of the
multiplication is evaluated, so visit_func_call raises TailCall from
inside the product, the trampoline rebinds n and re-runs the body, and
the pending multiplication is discarded: f(3) evaluates to 1 under the
source semantics, while the naive reference semantics (the same evaluator
with the two TailCall raise sites disabled) gives the correct 6. -/
theorem c1_tail_call_changes_result :
    (runProg true 20 (factProg 3)).1 = .ok (.val (.vint 1)) ∧
    (runProg false 20 (factProg 3)).1 = .ok (.val (.vint 6)) := by
  constructor <;>
    simp [runProg, factProg, initSt, run, andThenV, andThenVs, liftR, finEnv,
      finTail, finDepth, allocFrame, defineIn, envDefine, defineParams,
      assignParams, envGet, envGetF, envAssign, envAssignF, varsGet, varsSet,
      evalBinOpV, asNum, numEq, numLe, numQ, subNum, mulNum, isTruthy,
      eqSomeFid, pyEq, pyEqF, vsize]

theorem sum_body_step (fuel : Nat) (k a : Int) (i : Bool) (o : List String)
    (d m : Nat) (hk : 0 < k) :
    run true fuel (.blockEnter sumBody 1) (stIter k a i o d m) =
      (.error (.tailS 0 [.vint (k - 1), .vint (a + k)]), stIter k a true o d m) := by
  simp [run, sumBody, stIter, gFrame, callFrame, sumObj, andThenV, andThenVs,
    finEnv, finTail, liftR, envGet, envGetF, varsGet, evalBinOpV, asNum,
    numLe, numQ, subNum, addNum, isTruthy, eqSomeFid,
    show ¬(k ≤ 0) by omega]

theorem sum_body_base (fuel : Nat) (k a : Int) (i : Bool) (o : List String)
    (d m : Nat) (hk : k ≤ 0) :
    run true fuel (.blockEnter sumBody 1) (stIter k a i o d m) =
      (.error (.retS (.vint a)), stBase k a o d m) := by
  simp [run, sumBody, stIter, stBase, gFrame, callFrame, sumObj, andThenV,
    andThenVs, finEnv, finTail, liftR, envGet, envGetF, varsGet, allocFrame,
    evalBinOpV, asNum, numLe, numQ, isTruthy, hk]

theorem run_tramp_step (cfg : Bool) (f : Nat) (fid envId : Nat) (pf : Option Nat)
    (pe : Nat) (st : St) (fo : FunObj) (hfo : st.funs[fid]? = some fo) :
    run cfg (f + 1) (.tramp fid envId pf pe) st =
      match run cfg f (.blockEnter fo.body envId) st with
      | (.ok (.val v), st1) => (.ok (.val v), { st1 with curFun := pf, env := pe })
      | (.error (.retS v), st1) => (.ok (.val v), { st1 with curFun := pf, env := pe })
      | (.error (.tailS tfid targs), st1) =>
        if tfid ≠ fid then
          run cfg f (.callF tfid targs) { st1 with curFun := pf, env := pe }
        else if targs.length ≠ fo.params.length then
          (.error (.flux "Wrong number of arguments"), st1)
        else
          match assignParams st1.frames envId (fo.params.zip targs) with
          | some frames2 =>
            run cfg f (.tramp fid envId pf pe) { st1 with frames := frames2 }
          | none => (.error (.flux "Cannot reassign undefined variable"), st1)
      | (.ok a, st1) => (.error (.internal "bad answer"), st1)
      | (.error ex, st1) => (.error ex, st1) := by
  conv_lhs => rw [run]
  simp [hfo]

theorem tramp_sum (k : Nat) :
    ∀ (a : Int) (i : Bool) (o : List String) (d m g : Nat),
      run true (k + 1 + g) (.tramp 0 1 none 0) (stIter (k : Int) a i o d m) =
        (.ok (.val (.vint (sumRef k a))), finalSt k a o d m) := by
  induction k with
  | zero =>
    intro a i o d m g
    have hf : (0 : Nat) + 1 + g = g + 1 := by omega
    rw [hf, run_tramp_step true g 0 1 none 0 _ sumObj (by simp [stIter])]
    rw [show sumObj.body = sumBody from rfl, Nat.cast_zero,
      sum_body_base g 0 a i o d m le_rfl]
    simp [stBase, finalSt, sumRef, stIter, gFrame, callFrame]
  | succ k ih =>
    intro a i o d m g
    have hf : (k + 1 : Nat) + 1 + g = (k + 1 + g) + 1 := by omega
    rw [hf, run_tramp_step true (k + 1 + g) 0 1 none 0 _ sumObj (by simp [stIter])]
    rw [show sumObj.body = sumBody from rfl]
    rw [show ((k + 1 : Nat) : Int) = (k : Int) + 1 by push_cast; ring]
    rw [sum_body_step (k + 1 + g) ((k : Int) + 1) a i o d m (by positivity)]
    have ih2 := ih (a + ((k : Int) + 1)) true o d m g
    simp only [stIter, gFrame, callFrame, sumObj] at ih2 ⊢
    simp [assignParams, envAssign, envAssignF, varsGet, varsSet, sumObj,
      show ((k : Int) + 1) - 1 = (k : Int) by ring, ih2, finalSt, sumRef,
      callFrame, gFrame]

set_option maxHeartbeats 2000000 in
/-- C2: the accumulator-style self-tail-call runs through the trampoline
of Function.call: for every iteration count N, the program sum(N, 0)
terminates with exactly the value of the directly-recursive reference
implementation sumRef, for every fuel margin, while the high-water mark of
nested Function.call native frames stays at 1 - the trampoline rebinds
the parameters of the one call Environment in place instead of calling
itself. -/
theorem c2_trampoline_sum (N g : Nat) :
    (runProg true (N + 2 + g) (sumProg (N : Int))).1 =
      .ok (.val (.vint (sumRef N 0))) ∧
    (runProg true (N + 2 + g) (sumProg (N : Int))).2.maxDepth = 1 := by
  have ht := tramp_sum N 0 false [] 1 1 (g + 1)
  rw [show N + 1 + (g + 1) = N + 2 + g by omega] at ht
  simp only [stIter, gFrame, callFrame, sumObj, finalSt] at ht
  constructor <;>
    simp [runProg, sumProg, initSt, run, andThenV, andThenVs, liftR, finEnv,
      finTail, finDepth, allocFrame, defineIn, envDefine, defineParams,
      envGet, envGetF, varsGet, varsSet, eqSomeFid, sumObj, ht]
